import Mathlib

/-!
Verification development for the MEXC spot/perp arbitrage scanner.

The definitions below are a shallow embedding of `scanner.py`, `database.py`
and `config.py`: pure helper functions are translated directly, stateful or
effectful code (HTTP fetches, sqlite, telegram sends, sleeps) is modelled by
explicit oracles/state passing, Python floats by `ℚ`, Python strings by
`String`/`List Char`.
-/

namespace MexcScanner

/- ===================== config.py constants ===================== -/

/-- config.py: `THRESHOLD_PERCENT = 1.5` (minimal spread to log/persist). -/
def THRESHOLD_PERCENT : ℚ := 1.5

/-- config.py: `THRESHOLD_NOTIFY_PERCENT = 2.0` (spread to notify at). -/
def THRESHOLD_NOTIFY_PERCENT : ℚ := 2.0

/-- config.py: `CHECK_INTERVAL_FAST = 30`. -/
def CHECK_INTERVAL_FAST : ℚ := 30

/-- config.py: `CHECK_INTERVAL_SLOW = 120`. -/
def CHECK_INTERVAL_SLOW : ℚ := 120

/-- config.py: `PAIRS_UPDATE_INTERVAL = 3600`. -/
def PAIRS_UPDATE_INTERVAL : ℚ := 3600

/-- config.py: `API_RATE_LIMIT = 20` (max requests per second). -/
def API_RATE_LIMIT : ℚ := 20

/-- config.py: `TOP_VOLUME_LIMIT = 100`. -/
def TOP_VOLUME_LIMIT : Nat := 100

/-- config.py: `API_MAX_CONCURRENT_REQUESTS = 10`. -/
def API_MAX_CONCURRENT_REQUESTS : Nat := 10

/- ===================== string helpers ===================== -/

/-- Python `s.upper()`, character-wise (all symbols in play are ASCII). -/
def upperChars (s : List Char) : List Char := s.map Char.toUpper

/-- Fuel-driven worker for `removeAll`.  At each position, if `pat` is a
prefix of the remaining input, the occurrence is skipped (matching Python's
left-to-right, non-rescanning `str.replace(pat, "")`), otherwise the head
character is kept.  One unit of fuel is spent per step; since every step
consumes at least one input character, `s.length` fuel is always enough. -/
def removeAllFuel (pat : List Char) : Nat → List Char → List Char
  | _, [] => []
  | 0, s => s
  | fuel + 1, c :: rest =>
    if pat.isPrefixOf (c :: rest) then
      removeAllFuel pat fuel (rest.drop (pat.length - 1))
    else
      c :: removeAllFuel pat fuel rest

/-- Python `s.replace(pat, "")` for a string `s` and pattern `pat`. -/
def removeAll (pat s : List Char) : List Char :=
  if pat.isEmpty then s else removeAllFuel pat s.length s

/-- Python `pat in s` (substring containment) on character lists. -/
def containsSub (pat : List Char) : List Char → Bool
  | [] => pat.isPrefixOf []
  | c :: rest => pat.isPrefixOf (c :: rest) || containsSub pat rest

/-- The futures contract-qualifier suffixes of the `re.sub` pattern in
`normalize_symbol` (scanner.py lines 76-80), in the regex's alternative
order.  No listed suffix is a suffix of another, so for any input at most
one of them can match at the end of the string; the regex (anchored at `$`)
therefore strips exactly that one. -/
def futuresSuffixes : List (List Char) :=
  ["_PERP".data, "_USD".data, "_USDT".data, "_FUTURE".data,
   "_THISWEEK".data, "_NEXTWEEK".data, "_QUARTER".data, "_NEXTQUARTER".data]

/-- `re.sub(r"(_PERP|_USD|_USDT|_FUTURE|_THISWEEK|_NEXTWEEK|_QUARTER|_NEXTQUARTER)$", "", s)`. -/
def stripFuturesSuffix (s : List Char) : List Char :=
  match futuresSuffixes.find? (fun suf => suf.isSuffixOf s) with
  | some suf => s.take (s.length - suf.length)
  | none => s

/-- scanner.py `normalize_symbol(symbol, symbol_type)` on character lists:
uppercase, then for `'spot'` apply `.replace("USDT","").replace("USD","")`,
for `'futures'` strip one trailing contract qualifier and drop every
underscore, otherwise return the uppercased symbol. -/
def normalizeChars (symbol : List Char) (symbol_type : String) : List Char :=
  let symbol := upperChars symbol
  if symbol_type = "spot" then
    removeAll "USD".data (removeAll "USDT".data symbol)
  else if symbol_type = "futures" then
    removeAll "_".data (stripFuturesSuffix symbol)
  else
    symbol

/-- scanner.py `normalize_symbol` on `String`. -/
def normalize_symbol (symbol : String) (symbol_type : String) : String :=
  String.mk (normalizeChars symbol.data symbol_type)

/- ===================== signals (scanner.py fetch_data_for_pair) ===================== -/

/-- The dict literal built by scanner.py `fetch_data_for_pair` (lines 269-282),
as a structure.  `bid_ask` keeps the exact Python string. -/
structure Signal where
  spot_symbol : String
  futures_symbol : String
  spot_price : ℚ
  futures_price : ℚ
  spread_percent : ℚ
  volume_spot : ℚ
  timestamp : String
  bid_ask : String
deriving DecidableEq, Repr

/-- scanner.py `fetch_data_for_pair` after both legs have been fetched:
the fetched spot price/volume and futures price are passed in (the HTTP
calls are modelled by the caller), and the function evaluates them exactly
as lines 264-282 do: prices `≤ 0` yield `None`, otherwise the signal dict is
built with `spread_percent = abs((futures_price - spot_price) / spot_price) * 100`. -/
def fetch_data_for_pair (spot_symbol futures_symbol : String)
    (spot_price volume futures_price : ℚ) (timestamp : String) : Option Signal :=
  if spot_price ≤ 0 ∨ futures_price ≤ 0 then none
  else some {
    spot_symbol := spot_symbol
    futures_symbol := futures_symbol
    spot_price := spot_price
    futures_price := futures_price
    spread_percent := |(futures_price - spot_price) / spot_price| * 100
    volume_spot := volume
    timestamp := timestamp
    bid_ask :=
      if futures_price > spot_price then "Buy Spot / Sell Futures"
      else "Buy Futures / Sell Spot" }

/- ===================== database.py ===================== -/

/-- A Python value as it appears in a signal dict (string or float). -/
inductive PyVal where
  | str : String → PyVal
  | num : ℚ → PyVal
deriving DecidableEq, Repr

/-- A Python dict with string keys, as an association list (the dict
literals in play have pairwise-distinct keys). -/
abbrev PyDict := List (String × PyVal)

/-- Python `d[k]` returning `none` in place of raising `KeyError`. -/
def dictGet (d : PyDict) (k : String) : Option PyVal :=
  (d.find? (fun p => p.1 == k)).map (fun p => p.2)

/-- database.py `ArbitrageSignal` dataclass. -/
structure ArbitrageSignal where
  symbol : String
  spot_price : ℚ
  futures_price : ℚ
  spread_percent : ℚ
  volume : ℚ
  timestamp : Option String
  id : Option Int
deriving DecidableEq, Repr

/-- One row of the `arbitrage_signals` table (the five columns inserted by
`save_signal`; `id`/`timestamp` are sqlite-generated and not modelled). -/
structure SignalRow where
  symbol : PyVal
  spot_price : PyVal
  futures_price : PyVal
  spread_percent : PyVal
  volume : PyVal
deriving DecidableEq, Repr

/-- The possible arguments of `save_signal`: an `ArbitrageSignal`, a dict,
or anything else (the `else` branch of the isinstance checks). -/
inductive SignalInput where
  | dataclass : ArbitrageSignal → SignalInput
  | dict : PyDict → SignalInput
  | other : SignalInput

/-- database.py `save_signal` (lines 183-216), with the signals table as
explicit state.  For a dataclass the five fields are read directly; for a
dict the five keys `symbol`, `spot_price`, `futures_price`,
`spread_percent`, `volume` are read, and a missing key raises `KeyError`,
which the function catches, logs and converts to `False` with no row
inserted; any other argument type is logged and yields `False`.  All
exception paths are caught inside the function, so it never propagates. -/
def save_signal (db : List SignalRow) (signal : SignalInput) : Bool × List SignalRow :=
  match signal with
  | .dataclass a =>
      (true, db ++ [⟨.str a.symbol, .num a.spot_price, .num a.futures_price,
                     .num a.spread_percent, .num a.volume⟩])
  | .dict d =>
      match dictGet d "symbol", dictGet d "spot_price", dictGet d "futures_price",
            dictGet d "spread_percent", dictGet d "volume" with
      | some sym, some sp, some fp, some spr, some vol =>
          (true, db ++ [⟨sym, sp, fp, spr, vol⟩])
      | _, _, _, _, _ => (false, db)
  | .other => (false, db)

/-- The signal dict exactly as scanner.py `fetch_data_for_pair` builds it
(lines 269-282) — these are the keys `process_and_notify` hands to
`save_signal`. -/
def signalToDict (sig : Signal) : PyDict :=
  [("spot_symbol", .str sig.spot_symbol),
   ("futures_symbol", .str sig.futures_symbol),
   ("spot_price", .num sig.spot_price),
   ("futures_price", .num sig.futures_price),
   ("spread_percent", .num sig.spread_percent),
   ("volume_spot", .num sig.volume_spot),
   ("timestamp", .str sig.timestamp),
   ("bid_ask", .str sig.bid_ask)]

/- ===================== notification fanout (scanner.py notify_subscribers) ===================== -/

/-- Outcome of one call of the injected transport `send_message_func`:
success, a `TimedOut` exception, or any other exception. -/
inductive SendOutcome where
  | ok
  | timedOut
  | failed
deriving DecidableEq, Repr

/-- What the inner `send_message` coroutine of `notify_subscribers` does
with one recipient: the delivery either succeeds, or the exception is
caught and logged (a timeout additionally sleeps 3 seconds in the slot).
No branch re-raises. -/
inductive DeliveryLog where
  | delivered (user_id : Int)
  | timeoutLogged (user_id : Int) (cooldown : ℚ)
  | errorLogged (user_id : Int)
deriving DecidableEq, Repr

/-- scanner.py `send_message(user_id)` (lines 364-383): one delivery
attempt with both exception handlers. -/
def send_message (send : Int → SendOutcome) (user_id : Int) : DeliveryLog :=
  match send user_id with
  | .ok => .delivered user_id
  | .timedOut => .timeoutLogged user_id 3
  | .failed => .errorLogged user_id

/-- scanner.py `notify_subscribers` (lines 338-385): empty subscriber list
is an early return; otherwise `asyncio.gather` runs `send_message` once per
subscriber (the semaphore of 5 bounds concurrency but neither drops nor
duplicates deliveries; the gather is modelled in subscriber order). -/
def notify_subscribers (subscribers : List Int) (send : Int → SendOutcome) :
    List DeliveryLog :=
  if subscribers.isEmpty then []
  else subscribers.map (send_message send)

/-- Recipient of a delivery-log entry. -/
def deliveryUser : DeliveryLog → Int
  | .delivered u => u
  | .timeoutLogged u _ => u
  | .errorLogged u => u

/- ===================== processing core (scanner.py process_and_notify) ===================== -/

/-- Observable outcome of one `process_and_notify` run: the final signals
table, the result of each `save_signal` call in order, and the delivery
log of each fanout in order. -/
structure ProcessResult where
  db : List SignalRow
  save_results : List Bool
  fanouts : List (List DeliveryLog)
deriving DecidableEq, Repr

/-- scanner.py `process_and_notify` (lines 392-409): for each pair fetch
and evaluate (modelled by the `fetch` oracle); skip on `None`; if the
spread reaches `THRESHOLD_PERCENT` call `save_signal` on the signal dict,
and additionally fan out when it reaches `THRESHOLD_NOTIFY_PERCENT`. -/
def process_and_notify (fetch : String → String → Option Signal)
    (subscribers : List Int) (send : Int → SendOutcome) :
    List (String × String) → List SignalRow → ProcessResult
  | [], db => ⟨db, [], []⟩
  | (spot_sym, fut_sym) :: rest, db =>
    match fetch spot_sym fut_sym with
    | none => process_and_notify fetch subscribers send rest db
    | some sig =>
      if THRESHOLD_PERCENT ≤ sig.spread_percent then
        let saved := save_signal db (.dict (signalToDict sig))
        let notes :=
          if THRESHOLD_NOTIFY_PERCENT ≤ sig.spread_percent then
            [notify_subscribers subscribers send]
          else []
        let r := process_and_notify fetch subscribers send rest saved.2
        ⟨r.db, saved.1 :: r.save_results, notes ++ r.fanouts⟩
      else
        process_and_notify fetch subscribers send rest db

/- ===================== pair discovery (scanner.py get_futures_symbols / get_top_symbol_pairs) ===================== -/

/-- One element of the `data` list of the futures-listing response: a dict
with the three symbol-candidate keys, or a non-dict element (skipped). -/
inductive FuturesItem where
  | dict (symbol contractName instrumentId : Option String)
  | nondict
deriving DecidableEq, Repr

/-- The futures-listing response body: its `data` field is a list or not. -/
inductive FuturesPayload where
  | withList (items : List FuturesItem)
  | noList
deriving DecidableEq, Repr

/-- A transport-level fetch outcome: a parsed response or an exception. -/
inductive FetchOutcome (α : Type) where
  | ok (a : α)
  | err
deriving DecidableEq, Repr

/-- Python `a or b` on optional strings: `None` and `""` are falsy. -/
def pyOr (a b : Option String) : Option String :=
  match a with
  | some s => if s = "" then b else some s
  | none => b

/-- The symbol-collection loop of `get_futures_symbols` (lines 166-173):
`item.get("symbol") or item.get("contractName") or item.get("instrumentId")`,
appended when truthy. -/
def collectSymbols : List FuturesItem → List String
  | [] => []
  | .nondict :: rest => collectSymbols rest
  | .dict s c i :: rest =>
    match pyOr (pyOr s c) i with
    | some sym =>
        if sym = "" then collectSymbols rest else sym :: collectSymbols rest
    | none => collectSymbols rest

/-- scanner.py `get_futures_symbols` (lines 154-180): a transport error or
a response whose `data` is not a list yields `[]`; otherwise the collected
symbols.  Every failure path is inside the `try`, so the caller never sees
an exception. -/
def get_futures_symbols (resp : FetchOutcome FuturesPayload) : List String :=
  match resp with
  | .err => []
  | .ok .noList => []
  | .ok (.withList items) => collectSymbols items

/-- The `futures_norm_map` built by lines 193-197: canonical futures form
mapped to the original symbol (later entries overwrite earlier ones, as in
a Python dict). -/
def buildNormMap (futures_symbols_raw : List String) : List (String × String) :=
  futures_symbols_raw.map (fun f => (normalize_symbol f "futures", f))

/-- Python-dict lookup on the association list: the last binding wins. -/
def mapLookup (m : List (String × String)) (k : String) : Option String :=
  (m.reverse.find? (fun p => p.1 == k)).map (fun p => p.2)

/-- The selection loop of `get_top_symbol_pairs` (lines 199-205): iterate
ranked spot symbols, emit a pair for each whose canonical spot form is in
the map, and break as soon as `limit` pairs have been collected (the
length test runs after the append, exactly as in the source). -/
def selectPairs (m : List (String × String)) (limit : Nat) :
    List String → List (String × String) → List (String × String)
  | [], filtered => filtered
  | spot_sym :: rest, filtered =>
    match mapLookup m (normalize_symbol spot_sym "spot") with
    | some f =>
      let filtered2 := filtered ++ [(spot_sym, f)]
      if limit ≤ filtered2.length then filtered2
      else selectPairs m limit rest filtered2
    | none => selectPairs m limit rest filtered

/-- Characterization device for `selectPairs`: the full match sequence —
every ranked spot symbol whose canonical form is in the map, paired with
the mapped derivative symbol, in ranking order and without the limit cut.
`selectPairs` is proved below to be a `take limit` of this list. -/
def matchedPairs (m : List (String × String)) : List String → List (String × String)
  | [] => []
  | s :: rest =>
    match mapLookup m (normalize_symbol s "spot") with
    | some f => (s, f) :: matchedPairs m rest
    | none => matchedPairs m rest

/-- Line 190: drop ranked spot symbols containing `"TRUMP"` (the non-string
elements that the same line drops are outside this model's symbol type). -/
def spotFilter (top_symbols : List String) : List String :=
  top_symbols.filter (fun s => !(containsSub "TRUMP".data s.data))

/-- scanner.py `get_top_symbol_pairs` (lines 183-208).  The two
collaborator fetches are parameters: `futuresResp` is the futures-listing
response and `top_symbols` the ranked spot list that `get_top_symbols`
returned (the source requests `limit * 3` of them). -/
def get_top_symbol_pairs (futuresResp : FetchOutcome FuturesPayload)
    (top_symbols : List String) (limit : Nat) : List (String × String) :=
  let futures_symbols_raw := get_futures_symbols futuresResp
  if futures_symbols_raw.isEmpty then []
  else selectPairs (buildNormMap futures_symbols_raw) limit (spotFilter top_symbols) []

/- ===================== rate limiting (scanner.py lines 50-67) ===================== -/

/-- The single module-level rate-limiter state of scanner.py: the global
`_last_request_time` (line 51).  There is exactly one such state for the
whole module; both fetchers thread it. -/
structure RateLimiterState where
  last_request_time : ℚ
deriving DecidableEq, Repr

/-- Line 52: `_min_interval = 1 / API_RATE_LIMIT if API_RATE_LIMIT > 0 else 0.2`. -/
def min_interval : ℚ := if 0 < API_RATE_LIMIT then 1 / API_RATE_LIMIT else 0.2

/-- Line 53: the single module-level semaphore shared by every fetch. -/
def scanner_semaphore_capacity : Nat := API_MAX_CONCURRENT_REQUESTS

/-- scanner.py `rate_limit()` (lines 60-67): sleep out the remainder of
`_min_interval` and stamp `_last_request_time` with the post-sleep clock.
Returns the updated module state and the time slept. -/
def rate_limit (st : RateLimiterState) (now : ℚ) : RateLimiterState × ℚ :=
  let elapsed := now - st.last_request_time
  let sleepFor := if elapsed < min_interval then min_interval - elapsed else 0
  (⟨now + sleepFor⟩, sleepFor)

/-- The limiter step a spot fetch performs (lines 213-214:
`async with semaphore: await rate_limit()`) — it acts on the one module
state. -/
def spot_fetch_rate_limit (st : RateLimiterState) (now : ℚ) : RateLimiterState × ℚ :=
  rate_limit st now

/-- The limiter step a futures fetch performs (lines 232-233) — the same
operation on the same module state. -/
def futures_fetch_rate_limit (st : RateLimiterState) (now : ℚ) : RateLimiterState × ℚ :=
  rate_limit st now

/- ===================== spot price retry loop (scanner.py fetch_spot_price) ===================== -/

/-- Outcome of one attempt of the retry loop's `try` body: a parsed
`(price, volume)` or an exception (transport error, bad JSON, bad float). -/
inductive SpotAttempt where
  | ok (price volume : ℚ)
  | exn
deriving DecidableEq, Repr

/-- Observable outcome of `fetch_spot_price`: the returned pair, how many
attempts ran, and the backoff sleeps performed in order. -/
structure SpotFetchResult where
  value : ℚ × ℚ
  attempts_made : Nat
  sleeps : List ℚ
deriving DecidableEq, Repr

/-- The `for attempt in range(retries)` loop of `fetch_spot_price`
(lines 216-227): attempt outcomes are given by the oracle; a success
returns immediately, a failure logs and sleeps `1.5 * (attempt + 1)`;
falling off the loop returns the `(0, 0)` sentinel. -/
def fetchSpotGo (oracle : Nat → SpotAttempt) (attempt remaining made : Nat)
    (sleeps : List ℚ) : SpotFetchResult :=
  match remaining with
  | 0 => ⟨(0, 0), made, sleeps⟩
  | r + 1 =>
    match oracle attempt with
    | .ok p v => ⟨(p, v), made + 1, sleeps⟩
    | .exn =>
        fetchSpotGo oracle (attempt + 1) r (made + 1)
          (sleeps ++ [1.5 * ((attempt : ℚ) + 1)])

/-- scanner.py `fetch_spot_price` (lines 211-227) with `retries = 3` as at
the call sites. -/
def fetch_spot_price (oracle : Nat → SpotAttempt) (retries : Nat := 3) :
    SpotFetchResult :=
  fetchSpotGo oracle 0 retries 0 []

/- ===================== main loop (scanner.py main_loop) ===================== -/

/-- Observable actions of one pass of the `while True` body of `main_loop`
after the pair partition (lines 434-453). -/
inductive LoopAction where
  | scanFast (n : Nat)
  | scanSlow (n : Nat)
  | sleep (secs : ℚ)
deriving DecidableEq, Repr

/-- One pass of `main_loop`'s scan section (lines 434-453): partition into
`pairs[:50]` and `pairs[50:]`; each tier, **only if non-empty**, is scanned
and then the tier's interval is slept — both the scan and the sleep sit
inside the `if fast_pairs:` / `if slow_pairs:` guards. -/
def main_loop_iteration (pairs : List (String × String)) : List LoopAction :=
  let fast_pairs := pairs.take 50
  let slow_pairs := pairs.drop 50
  (if fast_pairs.isEmpty then []
   else [.scanFast fast_pairs.length, .sleep CHECK_INTERVAL_FAST]) ++
  (if slow_pairs.isEmpty then []
   else [.scanSlow slow_pairs.length, .sleep CHECK_INTERVAL_SLOW])

/-- The sleep durations of an action trace, in order. -/
def sleepsOf : List LoopAction → List ℚ
  | [] => []
  | .sleep s :: rest => s :: sleepsOf rest
  | .scanFast _ :: rest => sleepsOf rest
  | .scanSlow _ :: rest => sleepsOf rest

/- ===================== theorems ===================== -/

/-- C2: for spotPrice > 0 and derivativePrice > 0 the evaluation produces a
signal whose `spread_percent` is `|derivativePrice - spotPrice| / spotPrice * 100`
and whose `bid_ask` direction names the larger price; for a non-positive
price it produces none. -/
theorem claim_C2_evaluate (ss fs ts : String) (sp vol fp : ℚ) :
    (0 < sp → 0 < fp →
      ∃ sig, fetch_data_for_pair ss fs sp vol fp ts = some sig ∧
        sig.spread_percent = |fp - sp| / sp * 100 ∧
        (sp < fp → sig.bid_ask = "Buy Spot / Sell Futures") ∧
        (fp < sp → sig.bid_ask = "Buy Futures / Sell Spot")) ∧
    (sp ≤ 0 ∨ fp ≤ 0 → fetch_data_for_pair ss fs sp vol fp ts = none) := by
  constructor
  · intro hsp hfp
    have hcond : ¬ (sp ≤ 0 ∨ fp ≤ 0) := by
      push_neg
      exact ⟨hsp, hfp⟩
    refine ⟨_, by rw [fetch_data_for_pair, if_neg hcond], ?_, ?_, ?_⟩
    · show |(fp - sp) / sp| * 100 = |fp - sp| / sp * 100
      rw [abs_div, abs_of_pos hsp]
    · intro hlt
      show (if fp > sp then _ else _) = _
      rw [if_pos hlt]
    · intro hlt
      show (if fp > sp then _ else _) = _
      rw [if_neg (not_lt.mpr hlt.le)]
  · intro h
    rw [fetch_data_for_pair, if_pos h]

/-- Witness for C2 at spot 100 / futures 108 (and the none case at spot 0). -/
theorem claim_C2_evaluate_witness :
    (∃ sig, fetch_data_for_pair "BTCUSDT" "BTC_USDT" 100 1000 108 "t" = some sig ∧
      sig.spread_percent = |(108 : ℚ) - 100| / 100 * 100 ∧
      ((100 : ℚ) < 108 → sig.bid_ask = "Buy Spot / Sell Futures") ∧
      ((108 : ℚ) < 100 → sig.bid_ask = "Buy Futures / Sell Spot")) ∧
    fetch_data_for_pair "BTCUSDT" "BTC_USDT" 0 1000 108 "t" = none :=
  ⟨(claim_C2_evaluate "BTCUSDT" "BTC_USDT" "t" 100 1000 108).1 (by norm_num) (by norm_num),
   (claim_C2_evaluate "BTCUSDT" "BTC_USDT" "t" 0 1000 108).2 (Or.inl le_rfl)⟩

/-- C6: a failed derivative-listing fetch (transport error, or a response
whose `data` is not a list) makes `get_top_symbol_pairs` return the empty
pair list, for every ranked spot list and limit. -/
theorem claim_C6_empty_on_listing_failure (top : List String) (limit : Nat) :
    get_top_symbol_pairs .err top limit = [] ∧
    get_top_symbol_pairs (.ok .noList) top limit = [] :=
  ⟨rfl, rfl⟩

/-- C7: fanout over an empty subscriber list is a no-op, and over any
subscriber list every subscriber receives exactly one delivery attempt, in
order, whatever the per-recipient outcomes (failures and timeouts are
caught and logged, so no recipient's failure suppresses another's
attempt and the call never raises). -/
theorem claim_C7_fanout (subscribers : List Int) (send : Int → SendOutcome) :
    notify_subscribers [] send = [] ∧
    (notify_subscribers subscribers send).map deliveryUser = subscribers := by
  refine ⟨rfl, ?_⟩
  have huser : ∀ u : Int, deliveryUser (send_message send u) = u := by
    intro u
    cases hu : send u <;> simp [send_message, hu, deliveryUser]
  by_cases h : subscribers.isEmpty
  · rw [List.isEmpty_iff.mp h]
    rfl
  · rw [notify_subscribers, if_neg h, List.map_map]
    calc subscribers.map (deliveryUser ∘ send_message send)
        = subscribers.map id := List.map_congr_left (fun u _ => huser u)
      _ = subscribers := List.map_id subscribers

/-- C8: the spot fetch makes at most 3 attempts; if every attempt fails it
sleeps `1.5 * attemptNumber` seconds after each failed attempt and returns
the `(0, 0)` sentinel (no exception escapes: every oracle outcome is
handled). -/
theorem claim_C8_spot_retry (oracle : Nat → SpotAttempt) :
    (fetch_spot_price oracle).attempts_made ≤ 3 ∧
    ((∀ i, oracle i = .exn) →
      fetch_spot_price oracle =
        ⟨(0, 0), 3, [1.5 * 1, 1.5 * 2, 1.5 * 3]⟩) := by
  constructor
  · cases h0 : oracle 0 <;> cases h1 : oracle 1 <;> cases h2 : oracle 2 <;>
      simp [fetch_spot_price, fetchSpotGo, h0, h1, h2]
  · intro hall
    have h0 := hall 0
    have h1 := hall 1
    have h2 := hall 2
    simp only [fetch_spot_price, fetchSpotGo, h0, h1, h2]
    norm_num

/-- Witness for C8: the all-failures oracle. -/
theorem claim_C8_spot_retry_witness :
    (∀ i : Nat, (fun _ : Nat => SpotAttempt.exn) i = SpotAttempt.exn) ∧
    fetch_spot_price (fun _ : Nat => SpotAttempt.exn) =
      ⟨(0, 0), 3, [1.5 * 1, 1.5 * 2, 1.5 * 3]⟩ :=
  ⟨fun _ => rfl, (claim_C8_spot_retry (fun _ => SpotAttempt.exn)).2 (fun _ => rfl)⟩

/-- C4 counterexample: an iteration with an empty pair set performs no
action at all — in particular neither tier-interval sleep — because both
sleeps sit inside the `if fast_pairs:` / `if slow_pairs:` guards. -/
theorem claim_C4_cex_empty_iteration_no_sleep :
    main_loop_iteration [] = [] ∧ sleepsOf (main_loop_iteration []) = [] :=
  ⟨rfl, rfl⟩

/-- C4 amended: the loop sleeps the fast interval only after a non-empty
fast tier and the slow interval only after a non-empty slow tier; an
iteration with an empty pair set performs no sleep. -/
theorem claim_C4_amended_tier_sleeps (pairs : List (String × String)) :
    sleepsOf (main_loop_iteration pairs) =
      if pairs.isEmpty then []
      else if pairs.length ≤ 50 then [CHECK_INTERVAL_FAST]
      else [CHECK_INTERVAL_FAST, CHECK_INTERVAL_SLOW] := by
  by_cases hp : pairs = []
  · subst hp
    rfl
  · have htake : (pairs.take 50).isEmpty = false := by
      simp [List.isEmpty_iff, List.take_eq_nil_iff, hp]
    by_cases hl : pairs.length ≤ 50
    · have hdrop : (pairs.drop 50).isEmpty = true := by
        simp [List.isEmpty_iff, List.drop_eq_nil_iff, hl]
      simp [main_loop_iteration, htake, hdrop, hp, hl, sleepsOf]
    · have hdrop : (pairs.drop 50).isEmpty = false := by
        rw [Bool.eq_false_iff]
        simp only [ne_eq, List.isEmpty_iff, List.drop_eq_nil_iff]
        omega
      simp [main_loop_iteration, htake, hdrop, hp, hl, sleepsOf]

/-- C9 counterexample: the limiter state is one module-level global shared
by both upstreams.  From the initial state, a derivative fetch at t = 10.01
would sleep 0; after a spot fetch at t = 10 has updated the shared
`_last_request_time`, the same derivative fetch sleeps 1/25 s — so a spot
fetch does modify and contend on the state the derivative fetches use. -/
theorem claim_C9_cex_shared_limiter :
    (futures_fetch_rate_limit ⟨0⟩ (10 + 1 / 100)).2 = 0 ∧
    (spot_fetch_rate_limit ⟨0⟩ 10).1 ≠ ⟨0⟩ ∧
    (futures_fetch_rate_limit (spot_fetch_rate_limit ⟨0⟩ 10).1 (10 + 1 / 100)).2
      = 1 / 25 := by
  refine ⟨?_, ?_, ?_⟩
  · simp only [futures_fetch_rate_limit, rate_limit, min_interval, API_RATE_LIMIT]
    norm_num
  · simp only [spot_fetch_rate_limit, rate_limit, min_interval, API_RATE_LIMIT,
      RateLimiterState.mk.injEq]
    norm_num
  · simp only [futures_fetch_rate_limit, spot_fetch_rate_limit, rate_limit,
      min_interval, API_RATE_LIMIT]
    norm_num

/-- C9 amended: rate limiting is shared, not per-upstream — a spot fetch
and a derivative fetch perform the identical limiter step on the single
module-level state, and that shared limiter keeps consecutive grant
timestamps at least `min_interval` apart. -/
theorem claim_C9_amended_shared_limiter (st : RateLimiterState) (now : ℚ) :
    spot_fetch_rate_limit st now = futures_fetch_rate_limit st now ∧
    min_interval ≤
      (spot_fetch_rate_limit st now).1.last_request_time - st.last_request_time := by
  refine ⟨rfl, ?_⟩
  simp only [spot_fetch_rate_limit, rate_limit]
  by_cases he : now - st.last_request_time < min_interval
  · rw [if_pos he]
    linarith
  · rw [if_neg he]
    push_neg at he
    linarith

/-- C10: `save_signal` is total (every error path is caught inside it), and
for an argument that is not an `ArbitrageSignal` and not a dict holding all
five of `symbol`, `spot_price`, `futures_price`, `spread_percent`,
`volume`, it returns `False` and leaves the signals table unchanged. -/
theorem claim_C10_save_signal_rejects (db : List SignalRow) (d : PyDict)
    (h : dictGet d "symbol" = none ∨ dictGet d "spot_price" = none ∨
         dictGet d "futures_price" = none ∨ dictGet d "spread_percent" = none ∨
         dictGet d "volume" = none) :
    save_signal db (.dict d) = (false, db) ∧
    save_signal db .other = (false, db) := by
  refine ⟨?_, rfl⟩
  rcases h with h | h | h | h | h <;>
    cases h1 : dictGet d "symbol" <;> cases h2 : dictGet d "spot_price" <;>
    cases h3 : dictGet d "futures_price" <;> cases h4 : dictGet d "spread_percent" <;>
    cases h5 : dictGet d "volume" <;>
    simp_all [save_signal]

/-- Witness for C10: a dict carrying only `spot_price`. -/
theorem claim_C10_save_signal_rejects_witness :
    dictGet [("spot_price", PyVal.num 1)] "symbol" = none ∧
    (save_signal [] (.dict [("spot_price", PyVal.num 1)]) = (false, []) ∧
      save_signal [] .other = (false, [])) :=
  ⟨rfl, claim_C10_save_signal_rejects [] [("spot_price", PyVal.num 1)] (Or.inl rfl)⟩

/-- C1 (documenting the defect): every signal dict that
`fetch_data_for_pair` produces uses the keys `spot_symbol` / `volume_spot`,
while `save_signal` reads `symbol` / `volume`, so the persistence call
raises `KeyError` internally, returns `False` and inserts no row — the scan
loop persists nothing.  Concretely: for the qualifying pair
BTCUSDT/BTC_USDT at spot 100, futures 108 (spread 8% ≥ both thresholds),
one `process_and_notify` step leaves the table empty, records the failed
save, and still fans out to the subscribers. -/
theorem claim_C1_scanner_signals_never_persisted :
    (∀ (sig : Signal) (db : List SignalRow),
      save_signal db (.dict (signalToDict sig)) = (false, db)) ∧
    process_and_notify (fun ss fs => fetch_data_for_pair ss fs 100 1000 108 "t")
        [1, 2, 3] (fun _ => .ok) [("BTCUSDT", "BTC_USDT")] [] =
      ⟨[], [false], [[.delivered 1, .delivered 2, .delivered 3]]⟩ := by
  constructor
  · intro sig db
    rfl
  · have hf : fetch_data_for_pair "BTCUSDT" "BTC_USDT" 100 1000 108 "t" =
        some ⟨"BTCUSDT", "BTC_USDT", 100, 108, 8, 1000, "t", "Buy Spot / Sell Futures"⟩ := by
      simp only [fetch_data_for_pair]
      norm_num [abs_of_nonneg]
    simp only [process_and_notify, hf]
    norm_num [THRESHOLD_PERCENT, THRESHOLD_NOTIFY_PERCENT]
    exact ⟨rfl, rfl, rfl⟩

/- ------- helper lemmas for the normalization and pair-building claims ------- -/

/-- `Char.ofNat` round-trips on valid codepoints. -/
theorem char_toNat_ofNat_valid (n : Nat) (h : n.isValidChar) : (Char.ofNat n).toNat = n := by
  simp [Char.ofNat, dif_pos h, Char.ofNatAux, Char.toNat, UInt32.toNat]

/-- `Char.toUpper` is idempotent. -/
theorem char_toUpper_idem (c : Char) : c.toUpper.toUpper = c.toUpper := by
  unfold Char.toUpper
  by_cases h : 97 ≤ c.toNat ∧ c.toNat ≤ 122
  · have hv : (c.toNat - 32).isValidChar := by
      left
      omega
    have hm : (Char.ofNat (c.toNat - 32)).toNat = c.toNat - 32 :=
      char_toNat_ofNat_valid _ hv
    rw [if_pos h, hm, if_neg (by omega)]
  · rw [if_neg h, if_neg h]

/-- Every character of `removeAllFuel`'s output comes from its input. -/
theorem mem_removeAllFuel (pat : List Char) :
    ∀ (fuel : Nat) (s : List Char) (c : Char), c ∈ removeAllFuel pat fuel s → c ∈ s := by
  intro fuel
  induction fuel with
  | zero =>
    intro s c h
    cases s with
    | nil => simp [removeAllFuel] at h
    | cons a rest => simpa [removeAllFuel] using h
  | succ n ih =>
    intro s c h
    cases s with
    | nil => simp [removeAllFuel] at h
    | cons a rest =>
      simp only [removeAllFuel] at h
      split at h
      · exact List.mem_cons_of_mem a (List.drop_subset _ _ (ih _ _ h))
      · rcases List.mem_cons.mp h with h | h
        · exact h ▸ List.mem_cons_self a rest
        · exact List.mem_cons_of_mem a (ih _ _ h)

/-- If the pattern occurs nowhere in the input, `removeAllFuel` is the
identity. -/
theorem removeAllFuel_of_not_contains (pat : List Char) :
    ∀ (fuel : Nat) (s : List Char), containsSub pat s = false →
      removeAllFuel pat fuel s = s := by
  intro fuel
  induction fuel with
  | zero =>
    intro s _
    cases s <;> rfl
  | succ n ih =>
    intro s h
    cases s with
    | nil => rfl
    | cons a rest =>
      rw [containsSub, Bool.or_eq_false_iff] at h
      simp only [removeAllFuel, h.1, Bool.false_eq_true, if_false]
      rw [ih rest h.2]

/-- If the pattern occurs nowhere in the input, `removeAll` is the identity. -/
theorem removeAll_of_not_contains (pat s : List Char) (h : containsSub pat s = false) :
    removeAll pat s = s := by
  rw [removeAll]
  split
  · rfl
  · exact removeAllFuel_of_not_contains pat _ s h

/-- Every character of `removeAll`'s output comes from its input. -/
theorem mem_removeAll (pat s : List Char) (c : Char) (h : c ∈ removeAll pat s) : c ∈ s := by
  rw [removeAll] at h
  split at h
  · exact h
  · exact mem_removeAllFuel pat _ s c h

/-- A string free of occurrences of `p1` is also free of occurrences of any
extension `p2` of `p1`. -/
theorem containsSub_false_mono (p1 p2 : List Char) (hp : p1 <+: p2) :
    ∀ s : List Char, containsSub p1 s = false → containsSub p2 s = false := by
  intro s
  induction s with
  | nil =>
    intro h
    rw [containsSub] at h ⊢
    rw [Bool.eq_false_iff] at h ⊢
    intro hc
    exact h (List.isPrefixOf_iff_prefix.mpr (hp.trans (List.isPrefixOf_iff_prefix.mp hc)))
  | cons a rest ih =>
    intro h
    rw [containsSub, Bool.or_eq_false_iff] at h ⊢
    refine ⟨?_, ih h.2⟩
    rw [Bool.eq_false_iff]
    intro hc
    rw [Bool.eq_false_iff] at h
    exact h.1 (List.isPrefixOf_iff_prefix.mpr (hp.trans (List.isPrefixOf_iff_prefix.mp hc)))

/-- A map by a function that fixes every element is the identity. -/
theorem map_fix_of_mem {f : Char → Char} (l : List Char) (h : ∀ c ∈ l, f c = c) :
    l.map f = l :=
  (List.map_congr_left h).trans (List.map_id l)

/-- The selection loop is a `take` of the full match sequence while the
accumulator is still under the limit. -/
theorem selectPairs_eq_take (m : List (String × String)) (limit : Nat) :
    ∀ (ss : List String) (acc : List (String × String)), acc.length < limit →
      selectPairs m limit ss acc = acc ++ (matchedPairs m ss).take (limit - acc.length) := by
  intro ss
  induction ss with
  | nil =>
    intro acc _
    simp [selectPairs, matchedPairs]
  | cons s rest ih =>
    intro acc h
    simp only [selectPairs, matchedPairs]
    cases hm : mapLookup m (normalize_symbol s "spot") with
    | none => exact ih acc h
    | some f =>
      show (if limit ≤ (acc ++ [(s, f)]).length then acc ++ [(s, f)]
          else selectPairs m limit rest (acc ++ [(s, f)])) =
        acc ++ ((s, f) :: matchedPairs m rest).take (limit - acc.length)
      have hlen : (acc ++ [(s, f)]).length = acc.length + 1 := by
        simp
      by_cases hle : limit ≤ acc.length + 1
      · have hk : limit - acc.length = 1 := by omega
        rw [if_pos (by rw [hlen]; exact hle), hk, List.take_succ_cons, List.take_zero]
      · have hlt : (acc ++ [(s, f)]).length < limit := by
          rw [hlen]
          omega
        have hk : limit - acc.length = (limit - ((acc ++ [(s, f)]).length)) + 1 := by
          rw [hlen]
          omega
        rw [if_neg (by rw [hlen]; omega), ih _ hlt, hk, List.take_succ_cons,
          List.append_assoc]
        rfl

/-- The spot components of the match sequence form a sublist of the ranked
spot list. -/
theorem matchedPairs_map_fst_sublist (m : List (String × String)) (ss : List String) :
    ((matchedPairs m ss).map Prod.fst).Sublist ss := by
  induction ss with
  | nil => simp [matchedPairs]
  | cons s rest ih =>
    rw [matchedPairs]
    cases hm : mapLookup m (normalize_symbol s "spot") with
    | none => exact ih.cons s
    | some f =>
      simp only [List.map_cons]
      exact ih.cons₂ s

/-- Every emitted match comes from the ranked list and is justified by the
canonical-form map. -/
theorem mem_matchedPairs (m : List (String × String)) (ss : List String)
    (p : String × String) (h : p ∈ matchedPairs m ss) :
    p.1 ∈ ss ∧ mapLookup m (normalize_symbol p.1 "spot") = some p.2 := by
  induction ss with
  | nil => simp [matchedPairs] at h
  | cons s rest ih =>
    rw [matchedPairs] at h
    revert h
    cases hm : mapLookup m (normalize_symbol s "spot") with
    | none =>
      intro h
      rcases ih h with ⟨h1, h2⟩
      exact ⟨List.mem_cons_of_mem s h1, h2⟩
    | some f =>
      intro h
      rcases List.mem_cons.mp h with h | h
      · subst h
        exact ⟨List.mem_cons_self s rest, hm⟩
      · rcases ih h with ⟨h1, h2⟩
        exact ⟨List.mem_cons_of_mem s h1, h2⟩

/- ------- C3 and C5 ------- -/

/-- C3 counterexample: spot normalization is not idempotent and does not
only strip trailing suffixes — `"UUSDSD"` normalizes to `"USD"`, which
normalizes again to `""`; and the leading (non-suffix) `"USDT"` of
`"USDTBTC"` is removed. -/
theorem claim_C3_cex_not_idempotent :
    normalize_symbol "UUSDSD" "spot" = "USD" ∧
    normalize_symbol (normalize_symbol "UUSDSD" "spot") "spot" ≠
      normalize_symbol "UUSDSD" "spot" ∧
    normalize_symbol "USDTBTC" "spot" = "BTC" :=
  ⟨by decide, by decide, by decide⟩

/-- C3 amended: spot normalization uppercases and removes every occurrence
of `USDT` and then of `USD` (not only trailing ones); it is idempotent on
every symbol whose normal form contains no occurrence of `USD` — in
particular on all real tickers, where the quote suffix occurs only at the
end and its removal creates no new occurrence. -/
theorem claim_C3_amended_idempotent (s : String)
    (h : containsSub "USD".data (normalize_symbol s "spot").data = false) :
    normalize_symbol (normalize_symbol s "spot") "spot" = normalize_symbol s "spot" := by
  have hspot : ∀ t : List Char,
      normalizeChars t "spot" =
        removeAll "USD".data (removeAll "USDT".data (upperChars t)) := fun _ => rfl
  have hdata : (normalize_symbol s "spot").data = normalizeChars s.data "spot" := rfl
  rw [hdata, hspot] at h
  have hup : upperChars (removeAll "USD".data (removeAll "USDT".data (upperChars s.data)))
      = removeAll "USD".data (removeAll "USDT".data (upperChars s.data)) := by
    apply map_fix_of_mem
    intro c hc
    have h1 := mem_removeAll _ _ _ hc
    have h2 := mem_removeAll _ _ _ h1
    rcases List.mem_map.mp h2 with ⟨c0, _, rfl⟩
    exact char_toUpper_idem c0
  have husdt : containsSub "USDT".data
      (removeAll "USD".data (removeAll "USDT".data (upperChars s.data))) = false :=
    containsSub_false_mono "USD".data "USDT".data (by decide) _ h
  show String.mk (normalizeChars (normalizeChars s.data "spot") "spot") =
    String.mk (normalizeChars s.data "spot")
  rw [hspot, hspot, hup, removeAll_of_not_contains _ _ husdt,
    removeAll_of_not_contains _ _ h]

/-- Witness for the amended C3 at `"BTCUSDT"`. -/
theorem claim_C3_amended_idempotent_witness :
    containsSub "USD".data (normalize_symbol "BTCUSDT" "spot").data = false ∧
    normalize_symbol (normalize_symbol "BTCUSDT" "spot") "spot" =
      normalize_symbol "BTCUSDT" "spot" :=
  ⟨by decide, claim_C3_amended_idempotent "BTCUSDT" (by decide)⟩

/-- C5: for every derivative listing, ranked spot list and positive limit,
the emitted pairs keep the ranking order of their spot symbols (they form a
sublist of the ranking), every emitted pair's spot symbol avoids the
deny-substring `TRUMP` and canonically matches its derivative symbol via
the listing map, and at most `limit` pairs are emitted. -/
theorem claim_C5_build_pairs (resp : FetchOutcome FuturesPayload)
    (top : List String) (limit : Nat) (h : 1 ≤ limit) :
    ((get_top_symbol_pairs resp top limit).map Prod.fst).Sublist top ∧
    (∀ p ∈ get_top_symbol_pairs resp top limit,
      containsSub "TRUMP".data p.1.data = false ∧
      mapLookup (buildNormMap (get_futures_symbols resp))
        (normalize_symbol p.1 "spot") = some p.2) ∧
    (get_top_symbol_pairs resp top limit).length ≤ limit := by
  by_cases hE : (get_futures_symbols resp).isEmpty
  · have hres : get_top_symbol_pairs resp top limit = [] := by
      simp only [get_top_symbol_pairs, hE, if_true]
    rw [hres]
    refine ⟨List.nil_sublist top, ?_, Nat.zero_le limit⟩
    intro p hp
    simp at hp
  · have hres : get_top_symbol_pairs resp top limit =
        (matchedPairs (buildNormMap (get_futures_symbols resp))
          (spotFilter top)).take limit := by
      simp only [get_top_symbol_pairs, hE, if_false]
      rw [selectPairs_eq_take _ limit (spotFilter top) [] (by exact h)]
      simp
    rw [hres]
    refine ⟨?_, ?_, ?_⟩
    · exact (((List.take_sublist _ _).map Prod.fst).trans
        (matchedPairs_map_fst_sublist _ _)).trans (List.filter_sublist top)
    · intro p hp
      have hmem := List.take_subset _ _ hp
      rcases mem_matchedPairs _ _ _ hmem with ⟨h1, h2⟩
      refine ⟨?_, h2⟩
      have hf := (List.mem_filter.mp h1).2
      rwa [Bool.not_eq_true'] at hf
    · exact List.length_take_le _ _

/-- Witness for C5 at the spec's own example: ranking `[A, B, C]` with only
A and C having derivative counterparts yields `[A, C]` in order. -/
theorem claim_C5_build_pairs_witness :
    1 ≤ 2 ∧
    (((get_top_symbol_pairs
        (.ok (.withList [.dict (some "A_USDT") none none, .dict (some "C_PERP") none none]))
        ["AUSDT", "BUSDT", "CUSDT"] 2).map Prod.fst).Sublist ["AUSDT", "BUSDT", "CUSDT"] ∧
      (∀ p ∈ get_top_symbol_pairs
          (.ok (.withList [.dict (some "A_USDT") none none, .dict (some "C_PERP") none none]))
          ["AUSDT", "BUSDT", "CUSDT"] 2,
        containsSub "TRUMP".data p.1.data = false ∧
        mapLookup (buildNormMap (get_futures_symbols
            (.ok (.withList [.dict (some "A_USDT") none none, .dict (some "C_PERP") none none]))))
          (normalize_symbol p.1 "spot") = some p.2) ∧
      (get_top_symbol_pairs
        (.ok (.withList [.dict (some "A_USDT") none none, .dict (some "C_PERP") none none]))
        ["AUSDT", "BUSDT", "CUSDT"] 2).length ≤ 2) :=
  ⟨by decide,
   claim_C5_build_pairs
     (.ok (.withList [.dict (some "A_USDT") none none, .dict (some "C_PERP") none none]))
     ["AUSDT", "BUSDT", "CUSDT"] 2 (by decide)⟩

end MexcScanner
